import Mathlib

/-!
Verification of the vehicle-search core (vehicle_search.py).

The embedding models the code shallowly:
- Python strings are Lean `String` values; operations work on the
  underlying `List Char`.  Python `str.strip`, `str.upper`, `str.lower`,
  `in` (substring test), `str.replace(pat, "", 1)` and `int(...)` are
  modelled by `pyStrip`, `pyUpper`, `pyLower`, `containsSeq`,
  `removeFirstOcc` and `pyInt?` (ASCII character classes; Python also
  accepts non-ASCII digits and underscore separators, which no record or
  query in this development uses).
- `difflib.SequenceMatcher.ratio` is modelled exactly for strings below
  the autojunk length threshold (200 characters): the matcher repeatedly
  takes a longest common contiguous block (leftmost in the first string,
  then leftmost in the second, on ties) and recurses on the two
  remainders; the score is 2*M/T over the combined length T, computed in
  `ratioQ` over the rationals rather than IEEE floats (exact for the
  short lengths involved).
- Vehicle records are fixed-field structures; the year fields keep the
  raw field text (`none` models an absent or falsy value).
- Python dicts are association lists with first-match lookup.
-/

namespace VehicleSearch

/-- Python str.strip restricted to the whitespace the queries use:
drop whitespace characters from both ends. -/
def pyStrip (s : String) : String :=
  String.mk (((s.data.dropWhile fun c => c.isWhitespace).reverse.dropWhile
    fun c => c.isWhitespace).reverse)

/-- Python str.lower, per-character (ASCII model). -/
def pyLower (s : String) : String :=
  String.mk (s.data.map Char.toLower)

/-- Python str.upper, per-character (ASCII model). -/
def pyUpper (s : String) : String :=
  String.mk (s.data.map Char.toUpper)

/-- Numeric value of a nonempty all-digit character list, else `none`. -/
def digitsToNat? (ds : List Char) : Option Nat :=
  if ds ≠ [] ∧ ds.all (fun c => c.isDigit) then
    some (ds.foldl (fun acc c => acc * 10 + (c.toNat - 48)) 0)
  else
    none

/-- Python int(s) on strings: strip whitespace, optional sign, decimal
digits; any other shape raises ValueError, modelled as `none`. -/
def pyInt? (s : String) : Option Int :=
  match (pyStrip s).data with
  | '+' :: ds => (digitsToNat? ds).map Int.ofNat
  | '-' :: ds => (digitsToNat? ds).map fun n => -(n : Int)
  | ds => (digitsToNat? ds).map Int.ofNat

/-- Python substring test `sub in s` on character lists. -/
def containsSeq (sub : List Char) : List Char → Bool
  | [] => sub.isEmpty
  | c :: rest => sub.isPrefixOf (c :: rest) || containsSeq sub rest

/-- Python s.replace(pat, "", 1) on character lists: delete the first
occurrence of `pat` when `pat` is nonempty and occurs; otherwise the
input is returned unchanged. -/
def removeFirstOcc : List Char → List Char → List Char
  | [], _ => []
  | c :: rest, pat =>
    if pat ≠ [] ∧ pat.isPrefixOf (c :: rest) then (c :: rest).drop pat.length
    else c :: removeFirstOcc rest pat

/-- Length of the longest common prefix of two character lists. -/
def commonPrefixLen : List Char → List Char → Nat
  | a :: as, b :: bs => if a = b then commonPrefixLen as bs + 1 else 0
  | _, _ => 0

/-- Length of the common contiguous run of `a` from index `i` and `b`
from index `j`. -/
def matchLenAt (a b : List Char) (i j : Nat) : Nat :=
  commonPrefixLen (a.drop i) (b.drop j)

/-- All index pairs (i, j) with i below `la` and j below `lb`, in
lexicographic order: the scan order of the matcher. -/
def allPairs (la lb : Nat) : List (Nat × Nat) :=
  (List.range la).flatMap fun i => (List.range lb).map fun j => (i, j)

/-- One scan step: record a candidate block only when strictly longer
than the best so far, so the leftmost longest block wins. -/
def bestStep (a b : List Char) (best : Nat × Nat × Nat) (p : Nat × Nat) :
    Nat × Nat × Nat :=
  if matchLenAt a b p.1 p.2 > best.2.2 then (p.1, p.2, matchLenAt a b p.1 p.2) else best

/-- Longest common contiguous block of `a` and `b`, as (start in a,
start in b, length); ties resolved to the leftmost start in `a`, then
the leftmost start in `b`, as difflib find_longest_match does without
junk. -/
def bestMatch (a b : List Char) : Nat × Nat × Nat :=
  (allPairs a.length b.length).foldl (bestStep a b) (0, 0, 0)

/-- Fuel-indexed total size of the matching blocks: take the best block,
recurse on the left and right remainders.  The fuel only serves
structural recursion; `totalMatched` supplies enough of it. -/
def totalMatchedFuel : Nat → List Char → List Char → Nat
  | 0, _, _ => 0
  | fuel + 1, a, b =>
    if (bestMatch a b).2.2 = 0 then 0
    else
      (bestMatch a b).2.2 +
        totalMatchedFuel fuel (a.take (bestMatch a b).1) (b.take (bestMatch a b).2.1) +
        totalMatchedFuel fuel (a.drop ((bestMatch a b).1 + (bestMatch a b).2.2))
          (b.drop ((bestMatch a b).2.1 + (bestMatch a b).2.2))

/-- Total size M of all matching blocks of the two character lists. -/
def totalMatched (a b : List Char) : Nat :=
  totalMatchedFuel (a.length + b.length) a b

/-- difflib SequenceMatcher ratio as an exact rational: 2*M/T, and 1
when both inputs are empty.  The quotient is built with `mkRat`, whose
value is the rational 2*M/T (see `ratioQ_eq_div`); this keeps the score
computable by kernel reduction. -/
def ratioQ (a b : List Char) : ℚ :=
  if a.length + b.length = 0 then 1
  else mkRat (2 * totalMatched a b) (a.length + b.length)

/-- VehicleDatabase._similarity: SequenceMatcher(None, a, b).ratio(). -/
def similarity (a b : String) : ℚ :=
  ratioQ a.data b.data

/-- One catalog record.  The three key fields hold the str()-converted
value (missing key gives the empty string, as vehicle.get(k, "") does);
the year fields keep the raw field text, `none` modelling an absent or
falsy value, since the code tests their truthiness and then parses. -/
structure Vehicle where
  codigoFipe : String
  montadora : String
  modelo : String
  tipoVeiculo : String
  anoInicial : Option String
  anoFinal : Option String
  categoria : Option String
  cota : Option String
deriving DecidableEq

/-- Python truthiness of the optional year field: present and nonempty. -/
def truthyField : Option String → Bool
  | none => false
  | some s => s ≠ ""

/-- The database: the loaded record list plus the three indexes built by
_create_indexes, with dicts as association lists. -/
structure VehicleDatabase where
  vehicles : List Vehicle
  byFipe : List (String × Vehicle)
  byBrand : List (String × List Vehicle)
  byModel : List (String × List Vehicle)
deriving DecidableEq

/-- Dict lookup: first entry with the key. -/
def alistLookup (m : List (String × α)) (k : String) : Option α :=
  (m.find? fun p => p.1 == k).map fun p => p.2

/-- Dict assignment d[k] = v: overwrite the entry in place, else append
(last write wins, as the FIPE index comments require). -/
def dictSet (m : List (String × Vehicle)) (k : String) (v : Vehicle) :
    List (String × Vehicle) :=
  if m.any fun p => p.1 == k then
    m.map fun p => if p.1 == k then (p.1, v) else p
  else m ++ [(k, v)]

/-- Dict bucket append d.setdefault-style: push `v` onto the list under
`k`, creating the key at the end when absent. -/
def dictPush (m : List (String × List Vehicle)) (k : String) (v : Vehicle) :
    List (String × List Vehicle) :=
  if m.any fun p => p.1 == k then
    m.map fun p => if p.1 == k then (p.1, p.2 ++ [v]) else p
  else m ++ [(k, [v])]

/-- Normalized FIPE key of a record: str value, stripped. -/
def fipeKey (v : Vehicle) : String := pyStrip v.codigoFipe

/-- Normalized brand key of a record: stripped then uppercased. -/
def brandKey (v : Vehicle) : String := pyUpper (pyStrip v.montadora)

/-- Normalized model key of a record: stripped then uppercased. -/
def modelKey (v : Vehicle) : String := pyUpper (pyStrip v.modelo)

/-- One iteration of the _create_indexes loop: index the record under
each of its three keys, skipping empty keys. -/
def indexStep (db : VehicleDatabase) (v : Vehicle) : VehicleDatabase :=
  let db1 :=
    if fipeKey v ≠ "" then { db with byFipe := dictSet db.byFipe (fipeKey v) v }
    else db
  let db2 :=
    if brandKey v ≠ "" then
      { db1 with byBrand := dictPush db1.byBrand (brandKey v) v }
    else db1
  if modelKey v ≠ "" then
    { db2 with byModel := dictPush db2.byModel (modelKey v) v }
  else db2

/-- VehicleDatabase.__init__ after the JSON load: keep the record list
and build the three indexes over it. -/
def mkDatabase (vs : List Vehicle) : VehicleDatabase :=
  vs.foldl indexStep { vehicles := vs, byFipe := [], byBrand := [], byModel := [] }

/-- VehicleDatabase.search_by_fipe: strip the code, exact index lookup. -/
def search_by_fipe (db : VehicleDatabase) (code : String) : Option Vehicle :=
  alistLookup db.byFipe (pyStrip code)

/-- VehicleDatabase.search_by_brand: all records under the normalized
brand key, or the empty list. -/
def search_by_brand (db : VehicleDatabase) (brand : String) : List Vehicle :=
  (alistLookup db.byBrand (pyUpper (pyStrip brand))).getD []

/-- Model acceptance for one candidate: the normalized query model text
is a substring of the candidate model, or the similarity score is above
0.7 strictly. -/
def modelAccept (modelU : String) (v : Vehicle) : Bool :=
  let vm := pyUpper (pyStrip v.modelo)
  containsSeq modelU.data vm.data || similarity modelU vm > mkRat 7 10

/-- Year filter for one candidate, mirroring the Python control flow
bit for bit: `if year:` (an integer 0 is falsy), `if ano_inicial and
ano_final:` (truthiness), then inside try the chained comparison
int(ano_inicial) <= year <= int(ano_final), whose right bound is only
evaluated when the left comparison already held; ValueError lands in
the fail-open except branch. -/
def yearKeep (year : Option Int) (v : Vehicle) : Bool :=
  match year with
  | none => true
  | some y =>
    if y ≠ 0 then
      if truthyField v.anoInicial && truthyField v.anoFinal then
        match pyInt? (v.anoInicial.getD "") with
        | none => true
        | some lo =>
          if lo ≤ y then
            match pyInt? (v.anoFinal.getD "") with
            | none => true
            | some hi => y ≤ hi
          else false
      else true
    else true

/-- VehicleDatabase.search_by_brand_and_model: normalize both keys,
fetch the brand bucket, keep candidates passing the model check and the
year filter, in bucket order. -/
def search_by_brand_and_model (db : VehicleDatabase) (brand model : String)
    (year : Option Int) : List Vehicle :=
  match alistLookup db.byBrand (pyUpper (pyStrip brand)) with
  | none => []
  | some bucket =>
    bucket.filter fun v => modelAccept (pyUpper (pyStrip model)) v && yearKeep year v

/-- VehicleDatabase.get_all_brands: the brand keys, sorted ascending.
Python sorted() is modelled by insertion sort; over the linear order on
strings the ascending permutation is unique, so the choice of sorting
algorithm is immaterial. -/
def get_all_brands (db : VehicleDatabase) : List String :=
  List.insertionSort (fun a b => a ≤ b) (db.byBrand.map fun p => p.1)

/-- Match of the FIPE pattern (six digits, hyphen, one digit) anchored
at the head of the list, returning the matched characters. -/
def fipeAt : List Char → Option (List Char)
  | d1 :: d2 :: d3 :: d4 :: d5 :: d6 :: h :: d7 :: _ =>
    if d1.isDigit ∧ d2.isDigit ∧ d3.isDigit ∧ d4.isDigit ∧ d5.isDigit ∧
        d6.isDigit ∧ h = '-' ∧ d7.isDigit then
      some [d1, d2, d3, d4, d5, d6, h, d7]
    else none
  | _ => none

/-- re.search of the FIPE pattern: leftmost match. -/
def findFipe : List Char → Option (List Char)
  | [] => none
  | c :: rest =>
    match fipeAt (c :: rest) with
    | some m => some m
    | none => findFipe rest

/-- A word character for the regex boundary: alphanumeric or underscore
(ASCII model of backslash-w). -/
def isWordChar (c : Char) : Bool := c.isAlphanum || c = '_'

/-- Word boundary holds on the left of a digit when there is no
preceding character or it is not a word character. -/
def boundaryBefore : Option Char → Bool
  | none => true
  | some c => !isWordChar c

/-- Word boundary holds on the right of a digit when the rest is empty
or starts with a non-word character. -/
def boundaryAfter : List Char → Bool
  | [] => true
  | c :: _ => !isWordChar c

/-- Match of the year pattern (word boundary, 19 or 20, two digits,
word boundary) anchored at the head, given the preceding character. -/
def yearAt (prev : Option Char) : List Char → Option Int
  | c1 :: c2 :: c3 :: c4 :: rest =>
    if ((c1 = '1' ∧ c2 = '9') ∨ (c1 = '2' ∧ c2 = '0')) ∧ c3.isDigit ∧
        c4.isDigit ∧ boundaryBefore prev = true ∧ boundaryAfter rest = true then
      some (Int.ofNat
        ((c1.toNat - 48) * 1000 + (c2.toNat - 48) * 100 +
          (c3.toNat - 48) * 10 + (c4.toNat - 48)))
    else none
  | _ => none

/-- re.search of the year pattern: leftmost match, carrying the
previous character for the left boundary test. -/
def findYearAux (prev : Option Char) : List Char → Option Int
  | [] => yearAt prev []
  | c :: rest =>
    match yearAt prev (c :: rest) with
    | some y => some y
    | none => findYearAux (some c) rest

/-- Year extracted from a query, if any. -/
def findYear (s : List Char) : Option Int := findYearAux none s

/-- Result of VehicleSearchParser.parse_query.  The model field is kept
for fidelity: the code declares it and never fills it. -/
structure ParsedQuery where
  brand : Option String
  model : Option String
  year : Option Int
  fipe_code : Option String
  raw_query : String
deriving DecidableEq

/-- Whether a known brand is detected in the query, case-insensitively:
brand.lower() in query.lower(). -/
def brandInQuery (brand query : String) : Bool :=
  containsSeq (pyLower brand).data (pyLower query).data

/-- VehicleSearchParser.parse_query: extract the FIPE code (leftmost
pattern match), the year (leftmost bounded 19xx/20xx token) and the
first known brand, scanning the sorted brand list, that occurs
case-insensitively in the query. -/
def parse_query (db : VehicleDatabase) (query : String) : ParsedQuery :=
  { brand := (get_all_brands db).find? fun b => brandInQuery b query
    model := none
    year := findYear query.data
    fipe_code := (findFipe query.data).map String.mk
    raw_query := query }

/-- The model text the free-text path passes on: the raw query with the
first literal occurrence of the stored brand key removed, then
stripped.  str.replace is case-sensitive, so nothing is removed when
the query spells the brand differently from the uppercased key. -/
def query_without_brand (query brand : String) : String :=
  pyStrip (String.mk (removeFirstOcc query.data brand.data))

/-- VehicleSearchParser.search: identifier short-circuit when the
extracted code is truthy and found, then the brand-scoped match, else
empty.  Truthiness guards mirror `if parsed[...]:`. -/
def search (db : VehicleDatabase) (query : String) : List Vehicle :=
  let parsed := parse_query db query
  let brandStep : List Vehicle :=
    match parsed.brand with
    | some b =>
      if b ≠ "" then
        let results :=
          search_by_brand_and_model db b (query_without_brand query b) parsed.year
        if results ≠ [] then results else []
      else []
    | none => []
  match parsed.fipe_code with
  | some code =>
    if code ≠ "" then
      match search_by_fipe db code with
      | some v => [v]
      | none => brandStep
    else brandStep
  | none => brandStep

/-- Spec reading of the brand removal for the free-text model text
(claim C1): delete the query characters at the first case-insensitive
occurrence of the brand.  Written from the spec words, to be compared
with the implemented `removeFirstOcc`, which is case-sensitive. -/
def removeFirstOccCI : List Char → List Char → List Char
  | [], _ => []
  | c :: rest, pat =>
    if pat ≠ [] ∧ (pat.map Char.toLower).isPrefixOf ((c :: rest).map Char.toLower)
    then (c :: rest).drop pat.length
    else c :: removeFirstOccCI rest pat

/-- Spec reading of the model text (claim C1): the raw query with the
matched brand substring removed once at its first case-insensitive
occurrence, then stripped. -/
def modelTextSpec (query brand : String) : String :=
  pyStrip (String.mk (removeFirstOccCI query.data brand.data))

/-- Concrete record used by the witnesses: the catalog example of the
spec (identifier 002107-5, TOYOTA HILUX, years 2010-2018). -/
def vHilux : Vehicle :=
  { codigoFipe := "002107-5", montadora := "TOYOTA", modelo := "HILUX",
    tipoVeiculo := "Carro", anoInicial := some ("2010"), anoFinal := some ("2018"),
    categoria := none, cota := none }

/-- One-record database over `vHilux`. -/
def dbHilux : VehicleDatabase := mkDatabase [vHilux]

/-- Concrete record whose model text contains an identifier-shaped
token that is not its own FIPE code (for claim C9). -/
def vOddModel : Vehicle :=
  { codigoFipe := "111111-1", montadora := "TOYOTA", modelo := "HILUX 999999-9",
    tipoVeiculo := "Carro", anoInicial := none, anoFinal := none,
    categoria := none, cota := none }

/-- One-record database over `vOddModel`. -/
def dbOddModel : VehicleDatabase := mkDatabase [vOddModel]

/-- Concrete record with a parseable year-start above the queried year
and a truthy non-numeric year-end (for claim C3). -/
def vBadYearEnd : Vehicle :=
  { codigoFipe := "222222-2", montadora := "TOYOTA", modelo := "HILUX",
    tipoVeiculo := "Carro", anoInicial := some ("2020"), anoFinal := some ("ABC"),
    categoria := none, cota := none }

/-- One-record database over `vBadYearEnd`. -/
def dbBadYearEnd : VehicleDatabase := mkDatabase [vBadYearEnd]

theorem commonPrefixLen_le_left : ∀ a b : List Char, commonPrefixLen a b ≤ a.length := by
  intro a
  induction a with
  | nil => intro b; cases b <;> simp [commonPrefixLen]
  | cons c cs ih =>
    intro b
    cases b with
    | nil => simp [commonPrefixLen]
    | cons d ds =>
      by_cases h : c = d <;> simp only [commonPrefixLen, if_pos, if_neg, h, List.length_cons]
      · exact Nat.succ_le_succ (ih ds)
      · simp

theorem commonPrefixLen_le_right : ∀ a b : List Char, commonPrefixLen a b ≤ b.length := by
  intro a
  induction a with
  | nil => intro b; cases b <;> simp [commonPrefixLen]
  | cons c cs ih =>
    intro b
    cases b with
    | nil => simp [commonPrefixLen]
    | cons d ds =>
      by_cases h : c = d <;> simp only [commonPrefixLen, if_pos, if_neg, h, List.length_cons]
      · exact Nat.succ_le_succ (ih ds)
      · simp

theorem commonPrefixLen_self : ∀ a : List Char, commonPrefixLen a a = a.length := by
  intro a
  induction a with
  | nil => simp [commonPrefixLen]
  | cons c cs ih => simp [commonPrefixLen, ih]

theorem mem_allPairs {la lb : Nat} {p : Nat × Nat} (h : p ∈ allPairs la lb) :
    p.1 < la ∧ p.2 < lb := by
  unfold allPairs at h
  simp only [List.mem_flatMap, List.mem_map, List.mem_range] at h
  obtain ⟨i, hi, j, hj, rfl⟩ := h
  exact ⟨hi, hj⟩

theorem bestMatch_bound (a b : List Char) :
    (bestMatch a b).1 + (bestMatch a b).2.2 ≤ a.length ∧
      (bestMatch a b).2.1 + (bestMatch a b).2.2 ≤ b.length := by
  unfold bestMatch
  refine @List.foldlRecOn _ _
    (fun acc => acc.1 + acc.2.2 ≤ a.length ∧ acc.2.1 + acc.2.2 ≤ b.length)
    (allPairs a.length b.length) (bestStep a b) (0, 0, 0) ?_ ?_
  · simp
  · intro acc hacc p hp
    unfold bestStep
    split
    · have h1 := (mem_allPairs hp).1
      have h2 := (mem_allPairs hp).2
      have h3 : matchLenAt a b p.1 p.2 ≤ a.length - p.1 := by
        have := commonPrefixLen_le_left (a.drop p.1) (b.drop p.2)
        simpa [matchLenAt, List.length_drop] using this
      have h4 : matchLenAt a b p.1 p.2 ≤ b.length - p.2 := by
        have := commonPrefixLen_le_right (a.drop p.1) (b.drop p.2)
        simpa [matchLenAt, List.length_drop] using this
      constructor <;> simp only <;> omega
    · exact hacc

theorem totalMatchedFuel_congr :
    ∀ f1 : Nat, ∀ a b : List Char, ∀ f2 : Nat,
      a.length + b.length ≤ f1 → a.length + b.length ≤ f2 →
      totalMatchedFuel f1 a b = totalMatchedFuel f2 a b := by
  intro f1
  induction f1 using Nat.strong_induction_on with
  | _ f1 ih =>
    intro a b f2 h1 h2
    match f1, h1 with
    | 0, h1 =>
      have ha : a = [] := by
        cases a with
        | nil => rfl
        | cons x xs => simp at h1
      have hb : b = [] := by
        cases b with
        | nil => rfl
        | cons x xs => simp at h1
      subst ha; subst hb
      cases f2 with
      | zero => rfl
      | succ g2 => simp [totalMatchedFuel, bestMatch, allPairs]
    | g1 + 1, h1 =>
      cases f2 with
      | zero =>
        have ha : a = [] := by
          cases a with
          | nil => rfl
          | cons x xs => simp at h2
        have hb : b = [] := by
          cases b with
          | nil => rfl
          | cons x xs => simp at h2
        subst ha; subst hb
        simp [totalMatchedFuel, bestMatch, allPairs]
      | succ g2 =>
        simp only [totalMatchedFuel]
        by_cases hk : (bestMatch a b).2.2 = 0
        · simp [hk]
        · simp only [hk, if_neg, not_false_iff]
          have hb1 := (bestMatch_bound a b).1
          have hb2 := (bestMatch_bound a b).2
          have hkpos : 1 ≤ (bestMatch a b).2.2 := Nat.one_le_iff_ne_zero.mpr hk
          have hta : (a.take (bestMatch a b).1).length = (bestMatch a b).1 := by
            rw [List.length_take]; omega
          have htb : (b.take (bestMatch a b).2.1).length = (bestMatch a b).2.1 := by
            rw [List.length_take]; omega
          have hda : (a.drop ((bestMatch a b).1 + (bestMatch a b).2.2)).length =
              a.length - ((bestMatch a b).1 + (bestMatch a b).2.2) := List.length_drop _ _
          have hdb : (b.drop ((bestMatch a b).2.1 + (bestMatch a b).2.2)).length =
              b.length - ((bestMatch a b).2.1 + (bestMatch a b).2.2) := List.length_drop _ _
          have e1 := ih g1 (by omega) (a.take (bestMatch a b).1) (b.take (bestMatch a b).2.1)
            g2 (by omega) (by omega)
          have e2 := ih g1 (by omega) (a.drop ((bestMatch a b).1 + (bestMatch a b).2.2))
            (b.drop ((bestMatch a b).2.1 + (bestMatch a b).2.2)) g2 (by omega) (by omega)
          rw [e1, e2]

theorem totalMatched_eq (a b : List Char) :
    totalMatched a b =
      if (bestMatch a b).2.2 = 0 then 0
      else
        (bestMatch a b).2.2 +
          totalMatched (a.take (bestMatch a b).1) (b.take (bestMatch a b).2.1) +
          totalMatched (a.drop ((bestMatch a b).1 + (bestMatch a b).2.2))
            (b.drop ((bestMatch a b).2.1 + (bestMatch a b).2.2)) := by
  by_cases h0 : a.length + b.length = 0
  · have ha : a = [] := by
      cases a with
      | nil => rfl
      | cons x xs => simp at h0
    have hb : b = [] := by
      cases b with
      | nil => rfl
      | cons x xs => simp at h0
    subst ha; subst hb
    simp [totalMatched, totalMatchedFuel, bestMatch, allPairs]
  · obtain ⟨n, hn⟩ : ∃ n, a.length + b.length = n + 1 :=
      ⟨a.length + b.length - 1, by omega⟩
    unfold totalMatched
    rw [hn]
    simp only [totalMatchedFuel]
    by_cases hk : (bestMatch a b).2.2 = 0
    · simp [hk]
    · simp only [hk, if_neg, not_false_iff]
      have hb1 := (bestMatch_bound a b).1
      have hb2 := (bestMatch_bound a b).2
      have hkpos : 1 ≤ (bestMatch a b).2.2 := Nat.one_le_iff_ne_zero.mpr hk
      have e1 := totalMatchedFuel_congr n (a.take (bestMatch a b).1)
        (b.take (bestMatch a b).2.1)
        ((a.take (bestMatch a b).1).length + (b.take (bestMatch a b).2.1).length)
        (by rw [List.length_take, List.length_take]; omega) (le_refl _)
      have e2 := totalMatchedFuel_congr n
        (a.drop ((bestMatch a b).1 + (bestMatch a b).2.2))
        (b.drop ((bestMatch a b).2.1 + (bestMatch a b).2.2))
        ((a.drop ((bestMatch a b).1 + (bestMatch a b).2.2)).length +
          (b.drop ((bestMatch a b).2.1 + (bestMatch a b).2.2)).length)
        (by rw [List.length_drop, List.length_drop]; omega) (le_refl _)
      rw [e1, e2]

theorem totalMatched_le :
    ∀ n : Nat, ∀ a b : List Char, a.length + b.length ≤ n →
      totalMatched a b ≤ a.length ∧ totalMatched a b ≤ b.length := by
  intro n
  induction n using Nat.strong_induction_on with
  | _ n ih =>
    intro a b hn
    rw [totalMatched_eq]
    by_cases hk : (bestMatch a b).2.2 = 0
    · simp [hk]
    · simp only [hk, if_neg, not_false_iff]
      have hb1 := (bestMatch_bound a b).1
      have hb2 := (bestMatch_bound a b).2
      have hkpos : 1 ≤ (bestMatch a b).2.2 := Nat.one_le_iff_ne_zero.mpr hk
      have hta : (a.take (bestMatch a b).1).length = (bestMatch a b).1 := by
        rw [List.length_take]; omega
      have htb : (b.take (bestMatch a b).2.1).length = (bestMatch a b).2.1 := by
        rw [List.length_take]; omega
      have hda := List.length_drop ((bestMatch a b).1 + (bestMatch a b).2.2) a
      have hdb := List.length_drop ((bestMatch a b).2.1 + (bestMatch a b).2.2) b
      have hnpos : 1 ≤ n := by omega
      have r1 := ih (n - 1) (by omega) (a.take (bestMatch a b).1)
        (b.take (bestMatch a b).2.1) (by omega)
      have r2 := ih (n - 1) (by omega) (a.drop ((bestMatch a b).1 + (bestMatch a b).2.2))
        (b.drop ((bestMatch a b).2.1 + (bestMatch a b).2.2)) (by omega)
      omega

theorem bestMatch_self (a : List Char) (h : a ≠ []) : bestMatch a a = (0, 0, a.length) := by
  obtain ⟨c, cs, rfl⟩ : ∃ c cs, a = c :: cs := by
    cases a with
    | nil => exact absurd rfl h
    | cons c cs => exact ⟨c, cs, rfl⟩
  unfold bestMatch
  obtain ⟨rest, hrest⟩ :
      ∃ rest, allPairs (c :: cs).length (c :: cs).length = (0, 0) :: rest := by
    unfold allPairs
    rw [List.length_cons, List.range_succ_eq_map, List.flatMap_cons]
    exact ⟨_, rfl⟩
  rw [hrest, List.foldl_cons]
  have hstep : bestStep (c :: cs) (c :: cs) (0, 0, 0) (0, 0) = (0, 0, (c :: cs).length) := by
    unfold bestStep
    simp [matchLenAt, commonPrefixLen_self]
  rw [hstep]
  refine @List.foldlRecOn _ _ (fun acc => acc = (0, 0, (c :: cs).length)) rest
    (bestStep (c :: cs) (c :: cs)) (0, 0, (c :: cs).length) rfl ?_
  intro acc hacc p hp
  subst hacc
  unfold bestStep
  have hle : matchLenAt (c :: cs) (c :: cs) p.1 p.2 ≤ (c :: cs).length := by
    have h1 := commonPrefixLen_le_left ((c :: cs).drop p.1) ((c :: cs).drop p.2)
    have h2 := List.length_drop p.1 (c :: cs)
    unfold matchLenAt
    omega
  have hng : ¬ matchLenAt (c :: cs) (c :: cs) p.1 p.2 >
      ((0, 0, (c :: cs).length) : Nat × Nat × Nat).2.2 := by
    show ¬ matchLenAt (c :: cs) (c :: cs) p.1 p.2 > (c :: cs).length
    omega
  rw [if_neg hng]

theorem totalMatched_self (a : List Char) : totalMatched a a = a.length := by
  by_cases h : a = []
  · subst h; rfl
  · rw [totalMatched_eq, bestMatch_self a h]
    have hlen : a.length ≠ 0 := by
      cases a with
      | nil => exact absurd rfl h
      | cons c cs => simp
    simp only [if_neg hlen]
    have h1 : a.take 0 = [] := List.take_zero a
    have h2 : a.drop (0 + a.length) = [] := by
      rw [Nat.zero_add]; exact List.drop_length a
    rw [h1, h2]
    have h3 : totalMatched [] [] = 0 := rfl
    rw [h3]
    omega

theorem ratioQ_eq_div (a b : List Char) :
    ratioQ a b =
      if a.length + b.length = 0 then 1
      else (2 * totalMatched a b : ℚ) / ((a.length : ℚ) + (b.length : ℚ)) := by
  unfold ratioQ
  split
  · rfl
  · rw [Rat.mkRat_eq_div]
    push_cast
    ring_nf

theorem ratioQ_self (a : List Char) : ratioQ a a = 1 := by
  rw [ratioQ_eq_div]
  by_cases h : a.length + a.length = 0
  · simp [h]
  · rw [if_neg h]
    rw [totalMatched_self]
    have hcast : ((a.length : ℚ) + a.length) ≠ 0 := by
      have h2 : (((a.length + a.length : ℕ)) : ℚ) ≠ 0 := Nat.cast_ne_zero.mpr h
      push_cast at h2
      exact h2
    rw [div_eq_one_iff_eq hcast]
    ring

theorem ratioQ_nonneg (a b : List Char) : 0 ≤ ratioQ a b := by
  rw [ratioQ_eq_div]
  split
  · norm_num
  · apply div_nonneg
    · positivity
    · positivity

theorem ratioQ_le_one (a b : List Char) : ratioQ a b ≤ 1 := by
  rw [ratioQ_eq_div]
  split
  · norm_num
  · rename_i h
    have hpos : (0 : ℚ) < (a.length : ℚ) + b.length := by
      have h2 : 0 < a.length + b.length := Nat.pos_of_ne_zero h
      exact_mod_cast h2
    rw [div_le_one hpos]
    have hle := totalMatched_le (a.length + b.length) a b (le_refl _)
    have h3 : 2 * totalMatched a b ≤ a.length + b.length := by omega
    exact_mod_cast h3

/-- Claim C2, counterexample: the similarity primitive is not
symmetric.  SequenceMatcher picks the leftmost longest block of the
FIRST argument; on ("ab", "bacb") it matches both characters (score
2/3), on ("bacb", "ab") only one (score 1/3), exactly as the Python
difflib implementation computes on these strings. -/
theorem C2_similarity_not_symmetric :
    similarity ("ab") ("bacb") = 2 / 3 ∧ similarity ("bacb") ("ab") = 1 / 3 ∧
      similarity ("ab") ("bacb") ≠ similarity ("bacb") ("ab") := by
  have h1 : totalMatched (['a', 'b']) (['b', 'a', 'c', 'b']) = 2 := by decide
  have h2 : totalMatched (['b', 'a', 'c', 'b']) (['a', 'b']) = 1 := by decide
  have e1 : similarity ("ab") ("bacb") = 2 / 3 := by
    unfold similarity
    rw [ratioQ_eq_div]
    norm_num [h1]
  have e2 : similarity ("bacb") ("ab") = 1 / 3 := by
    unfold similarity
    rw [ratioQ_eq_div]
    norm_num [h2]
  refine ⟨e1, e2, ?_⟩
  rw [e1, e2]
  norm_num

/-- Claim C2, amended: similarity of a string with itself is 1, and
every similarity score lies in the closed interval from 0 to 1; the
symmetry part of the claim fails (see the counterexample). -/
theorem C2_similarity_self_and_range (a b : String) :
    similarity a a = 1 ∧ 0 ≤ similarity a b ∧ similarity a b ≤ 1 :=
  ⟨ratioQ_self a.data, ratioQ_nonneg a.data b.data, ratioQ_le_one a.data b.data⟩

theorem containsSeq_nil (l : List Char) : containsSeq [] l = true := by
  cases l <;> simp [containsSeq, List.isPrefixOf]

theorem mem_search_by_brand_and_model {db : VehicleDatabase} {b m : String}
    {y : Option Int} {v : Vehicle} :
    v ∈ search_by_brand_and_model db b m y ↔
      v ∈ search_by_brand db b ∧
        modelAccept (pyUpper (pyStrip m)) v = true ∧ yearKeep y v = true := by
  unfold search_by_brand_and_model search_by_brand
  cases h : alistLookup db.byBrand (pyUpper (pyStrip b)) with
  | none => simp
  | some bucket => simp [List.mem_filter, Bool.and_eq_true, and_assoc]

/-- Claim C5: in the brand-scoped model match (no year supplied), a
candidate is accepted exactly when the normalized query model text is a
substring of its normalized model, or their similarity score strictly
exceeds 7/10. -/
theorem C5_model_match_criterion (db : VehicleDatabase) (b m : String) (v : Vehicle) :
    v ∈ search_by_brand_and_model db b m none ↔
      v ∈ search_by_brand db b ∧
        (containsSeq (pyUpper (pyStrip m)).data (pyUpper (pyStrip v.modelo)).data = true ∨
          similarity (pyUpper (pyStrip m)) (pyUpper (pyStrip v.modelo)) > 7 / 10) := by
  rw [mem_search_by_brand_and_model]
  have hb : mkRat 7 10 = (7 : ℚ) / 10 := by norm_num [Rat.mkRat_eq_div]
  unfold modelAccept yearKeep
  simp [Bool.or_eq_true, decide_eq_true_iff, hb]

theorem removeFirstOcc_of_not_contains (s pat : List Char)
    (h : containsSeq pat s = false) : removeFirstOcc s pat = s := by
  induction s with
  | nil => rfl
  | cons c rest ih =>
    unfold containsSeq at h
    rw [Bool.or_eq_false_iff] at h
    obtain ⟨h1, h2⟩ := h
    unfold removeFirstOcc
    rw [if_neg]
    · rw [ih h2]
    · rintro ⟨-, hpre⟩
      rw [h1] at hpre
      exact Bool.false_ne_true hpre

theorem removeFirstOcc_first (pat : List Char) (hne : pat ≠ []) :
    ∀ s pre suf : List Char, s = pre ++ pat ++ suf →
      (∀ pre2 suf2, s = pre2 ++ pat ++ suf2 → pre.length ≤ pre2.length) →
      removeFirstOcc s pat = pre ++ suf := by
  intro s
  induction s with
  | nil =>
    intro pre suf heq _
    exfalso
    apply hne
    rw [List.append_assoc] at heq
    exact (List.append_eq_nil.mp (List.append_eq_nil.mp heq.symm).2).1
  | cons c rest ih =>
    intro pre suf heq hmin
    cases pre with
    | nil =>
      rw [List.nil_append] at heq
      unfold removeFirstOcc
      rw [if_pos]
      · rw [heq, List.drop_left, List.nil_append]
      · refine ⟨hne, ?_⟩
        show pat.isPrefixOf (c :: rest) = true
        rw [List.isPrefixOf_iff_prefix, heq]
        exact List.prefix_append pat suf
    | cons p pre2 =>
      rw [List.cons_append, List.cons_append, List.cons.injEq] at heq
      obtain ⟨rfl, hrest⟩ := heq
      have hnp : ¬ (pat ≠ [] ∧ pat.isPrefixOf (c :: rest) = true) := by
        rintro ⟨-, hpre⟩
        rw [List.isPrefixOf_iff_prefix] at hpre
        obtain ⟨t, ht⟩ := hpre
        have hlen := hmin [] t (by rw [List.nil_append, ht])
        simp at hlen
      unfold removeFirstOcc
      split
      · rename_i hcond
        exact absurd hcond hnp
      · have hmin2 : ∀ pre3 suf3, rest = pre3 ++ pat ++ suf3 →
            pre2.length ≤ pre3.length := by
          intro pre3 suf3 h3
          have := hmin (c :: pre3) suf3 (by rw [h3]; simp)
          simpa using this
        rw [ih pre2 suf hrest hmin2]
        simp

theorem findFipe_ne_nil : ∀ s m : List Char, findFipe s = some m → m ≠ [] := by
  intro s
  induction s with
  | nil => intro m h; simp [findFipe] at h
  | cons c rest ih =>
    intro m h
    unfold findFipe at h
    cases hf : fipeAt (c :: rest) with
    | some m2 =>
      rw [hf] at h
      have hm : m2 = m := by
        simpa using h
      subst hm
      unfold fipeAt at hf
      split at hf
      · split at hf
        · rw [Option.some.injEq] at hf
          rw [← hf]
          simp
        · simp at hf
      · simp at hf
    | none =>
      rw [hf] at h
      exact ih m h

theorem parsed_fipe_ne_empty (db : VehicleDatabase) (q code : String)
    (h : (parse_query db q).fipe_code = some code) : code ≠ "" := by
  simp only [parse_query] at h
  cases hv : findFipe q.data with
  | none => rw [hv] at h; simp at h
  | some m =>
    rw [hv] at h
    have hmk : String.mk m = code := by simpa using h
    intro hc
    apply findFipe_ne_nil q.data m hv
    have hd : (String.mk m).data = ("" : String).data := by rw [hmk, hc]
    simpa using hd

theorem search_brand_path (db : VehicleDatabase) (q b : String)
    (h1 : (parse_query db q).brand = some b)
    (h3 : b ≠ "")
    (hf : (parse_query db q).fipe_code = none ∨
      ∃ code, (parse_query db q).fipe_code = some code ∧ search_by_fipe db code = none) :
    search db q =
      search_by_brand_and_model db b (query_without_brand q b) (parse_query db q).year := by
  have hstep :
      (match (parse_query db q).brand with
        | some c =>
          if c ≠ "" then
            if search_by_brand_and_model db c (query_without_brand q c)
                (parse_query db q).year ≠ [] then
              search_by_brand_and_model db c (query_without_brand q c) (parse_query db q).year
            else []
          else []
        | none => ([] : List Vehicle)) =
        search_by_brand_and_model db b (query_without_brand q b) (parse_query db q).year := by
    rw [h1]
    simp only [h3, ne_eq, not_false_iff, if_true]
    by_cases hr :
        search_by_brand_and_model db b (query_without_brand q b) (parse_query db q).year = []
    · simp [hr]
    · simp [hr]
  rcases hf with hf | ⟨code, hc, hl⟩
  · simp only [search]
    rw [hf]
    exact hstep
  · simp only [search]
    have hcne : code ≠ "" := parsed_fipe_ne_empty db q code hc
    simp only [hc, if_pos hcne, hl]
    exact hstep

theorem sbbm_empty_model (db : VehicleDatabase) (b : String) (y : Option Int) :
    search_by_brand_and_model db b ("") y = (search_by_brand db b).filter (yearKeep y) := by
  unfold search_by_brand_and_model search_by_brand
  cases h : alistLookup db.byBrand (pyUpper (pyStrip b)) with
  | none => simp
  | some bucket =>
    simp only [Option.getD_some]
    apply List.filter_congr
    intro v _
    have hm : modelAccept (pyUpper (pyStrip (""))) v = true := by
      unfold modelAccept
      have hd : (pyUpper (pyStrip (""))).data = [] := rfl
      simp [hd, containsSeq_nil]
    rw [hm, Bool.true_and]

set_option maxRecDepth 8000 in
/-- Claim C1, counterexample: the brand is detected case-insensitively
but str.replace removes only the literal uppercased key, so for the
query "toyota HILUX" the spec model text is "HILUX" while the code
passes the whole query through; the record is then missed entirely,
although the spec model text would have found it. -/
theorem C1_model_text_counterexample :
    (parse_query dbHilux ("toyota HILUX")).brand = some ("TOYOTA") ∧
      brandInQuery ("TOYOTA") ("toyota HILUX") = true ∧
      modelTextSpec ("toyota HILUX") ("TOYOTA") = ("HILUX") ∧
      query_without_brand ("toyota HILUX") ("TOYOTA") = ("toyota HILUX") ∧
      query_without_brand ("toyota HILUX") ("TOYOTA") ≠
        modelTextSpec ("toyota HILUX") ("TOYOTA") ∧
      search dbHilux ("toyota HILUX") = [] ∧
      search_by_brand_and_model dbHilux ("TOYOTA")
        (modelTextSpec ("toyota HILUX") ("TOYOTA")) none = [vHilux] := by
  decide

/-- Claim C1, amended: the model text passed to the brand-scoped match
is the raw query with the first occurrence of the stored brand key
removed case-SENSITIVELY, then stripped: when the key occurs verbatim
the first occurrence is deleted, and when it does not (for instance
when the query spells the brand in lower case) the query is passed on
merely stripped. -/
theorem C1_model_text_amended (db : VehicleDatabase) (q b : String)
    (h1 : (parse_query db q).brand = some b)
    (h2 : (parse_query db q).fipe_code = none)
    (h3 : b ≠ "") :
    search db q =
        search_by_brand_and_model db b (query_without_brand q b) (parse_query db q).year ∧
      (containsSeq b.data q.data = false → query_without_brand q b = pyStrip q) ∧
      (∀ pre suf : List Char, q.data = pre ++ b.data ++ suf →
        (∀ pre2 suf2, q.data = pre2 ++ b.data ++ suf2 → pre.length ≤ pre2.length) →
        query_without_brand q b = pyStrip (String.mk (pre ++ suf))) := by
  refine ⟨search_brand_path db q b h1 h3 (Or.inl h2), ?_, ?_⟩
  · intro hc
    unfold query_without_brand
    rw [removeFirstOcc_of_not_contains q.data b.data hc]
  · intro pre suf heq hmin
    have hb : b.data ≠ [] := by
      intro hnil
      apply h3
      have : b.data = ("" : String).data := by simpa using hnil
      cases b
      cases this
      rfl
    unfold query_without_brand
    rw [removeFirstOcc_first b.data hb q.data pre suf heq hmin]

/-- Claim C4: when the extracted identifier code is found in the FIPE
index, the search returns exactly that single record, with no model
matching or year filtering applied. -/
theorem C4_fipe_short_circuit (db : VehicleDatabase) (q code : String) (v : Vehicle)
    (h1 : (parse_query db q).fipe_code = some code)
    (h2 : search_by_fipe db code = some v) :
    search db q = [v] := by
  have hne := parsed_fipe_ne_empty db q code h1
  simp only [search]
  simp only [h1, if_pos hne, h2]

/-- Claim C6: when a brand was extracted and the model text left after
removing the brand is empty, the search returns every record of that
brand, filtered only by the year predicate. -/
theorem C6_brand_only_fallback (db : VehicleDatabase) (q b : String)
    (h1 : (parse_query db q).brand = some b)
    (h2 : b ≠ "")
    (h3 : (parse_query db q).fipe_code = none)
    (h4 : query_without_brand q b = "") :
    search db q = (search_by_brand db b).filter (yearKeep (parse_query db q).year) := by
  rw [search_brand_path db q b h1 h2 (Or.inl h3), h4, sbbm_empty_model]

/-- Claim C8: the extractor is total, and on an input matching none of
the three patterns it produces the all-absent ParsedQuery, while the
search returns the empty list rather than failing. -/
theorem C8_extractor_total (db : VehicleDatabase) (q : String)
    (h1 : findFipe q.data = none)
    (h2 : findYear q.data = none)
    (h3 : (get_all_brands db).find? (fun b => brandInQuery b q) = none) :
    parse_query db q =
        { brand := none, model := none, year := none, fipe_code := none, raw_query := q } ∧
      search db q = [] := by
  have hp : parse_query db q =
      { brand := none, model := none, year := none, fipe_code := none, raw_query := q } := by
    unfold parse_query
    rw [h1, h2, h3]
    rfl
  refine ⟨hp, ?_⟩
  simp only [search, hp]

/-- Claim C9: an extracted identifier code that is absent from the FIPE
index does not end the search: the brand-scoped match still runs and
its results are returned. -/
theorem C9_unknown_fipe_falls_through (db : VehicleDatabase) (q code b : String)
    (h1 : (parse_query db q).fipe_code = some code)
    (h2 : search_by_fipe db code = none)
    (h3 : (parse_query db q).brand = some b)
    (h4 : b ≠ "") :
    search db q =
      search_by_brand_and_model db b (query_without_brand q b) (parse_query db q).year :=
  search_brand_path db q b h3 h4 (Or.inr ⟨code, h1, h2⟩)

theorem find?_some_min (l : List String)
    (hl : List.Sorted (fun a c : String => a ≤ c) l) (p : String → Bool) (b : String)
    (h : l.find? p = some b) :
    b ∈ l ∧ p b = true ∧ ∀ x ∈ l, p x = true → b ≤ x := by
  induction l with
  | nil => simp at h
  | cons a t ih =>
    rw [List.sorted_cons] at hl
    obtain ⟨ha, ht⟩ := hl
    rw [List.find?_cons] at h
    cases hpa : p a with
    | true =>
      rw [hpa] at h
      have hba : a = b := by simpa using h
      subst hba
      refine ⟨List.mem_cons_self a t, hpa, ?_⟩
      intro x hx _
      rcases List.mem_cons.mp hx with rfl | hx2
      · exact le_refl x
      · exact ha x hx2
    | false =>
      rw [hpa] at h
      obtain ⟨hmem, hpb, hmin⟩ := ih ht h
      refine ⟨List.mem_cons_of_mem a hmem, hpb, ?_⟩
      intro x hx hpx
      rcases List.mem_cons.mp hx with rfl | hx2
      · rw [hpa] at hpx
        exact absurd hpx (by simp)
      · exact hmin x hx2 hpx

theorem find?_eq_some_iff_min (l : List String)
    (hl : List.Sorted (fun a c : String => a ≤ c) l) (p : String → Bool) (b : String) :
    l.find? p = some b ↔ b ∈ l ∧ p b = true ∧ ∀ x ∈ l, p x = true → b ≤ x := by
  constructor
  · exact find?_some_min l hl p b
  · rintro ⟨hmem, hpb, hmin⟩
    obtain ⟨b2, hb2⟩ :=
      Option.isSome_iff_exists.mp (List.find?_isSome.mpr ⟨b, hmem, hpb⟩)
    obtain ⟨hm2, hp2, hmin2⟩ := find?_some_min l hl p b2 hb2
    have e : b = b2 := le_antisymm (hmin b2 hm2 hp2) (hmin2 b hmem hpb)
    rw [hb2, e]

/-- Claim C10: because the known-brand list is sorted ascending, the
extracted brand is exactly the lexicographically smallest catalog brand
that occurs case-insensitively in the query; the outcome depends only
on the set of brand keys, not on catalog order, and when one brand name
is a substring of another the lexicographically earlier one wins. -/
theorem C10_brand_extraction_least (db : VehicleDatabase) (q b : String) :
    (parse_query db q).brand = some b ↔
      b ∈ get_all_brands db ∧ brandInQuery b q = true ∧
        ∀ b2 ∈ get_all_brands db, brandInQuery b2 q = true → b ≤ b2 := by
  have hs : List.Sorted (fun a c : String => a ≤ c) (get_all_brands db) := by
    unfold get_all_brands
    exact List.sorted_insertionSort (fun a c => a ≤ c) _
  have hiff :=
    find?_eq_some_iff_min (get_all_brands db) hs (fun x => brandInQuery x q) b
  simpa [parse_query] using hiff

/-- Claim C3, counterexample: a candidate with parseable year-start
2020 and truthy non-numeric year-end "ABC" is EXCLUDED for year 2015,
although the claim promises that a non-numeric year bound always fails
open: the chained comparison evaluates int(year-start) first, finds
that 2020 is not at most 2015, and never reaches the year-end, so no
exception fires and the record is dropped. -/
theorem C3_year_filter_counterexample :
    vBadYearEnd ∈ search_by_brand dbBadYearEnd ("TOYOTA") ∧
      modelAccept (pyUpper (pyStrip ("HILUX"))) vBadYearEnd = true ∧
      truthyField vBadYearEnd.anoInicial = true ∧
      truthyField vBadYearEnd.anoFinal = true ∧
      pyInt? (vBadYearEnd.anoFinal.getD ("")) = none ∧
      vBadYearEnd ∉ search_by_brand_and_model dbBadYearEnd ("TOYOTA") ("HILUX") (some 2015) := by
  decide

/-- Claim C3, amended: with a truthy year, a candidate passing the
model check is included iff: a year bound is absent or falsy; or the
year-start does not parse; or the year-start parses, is at most the
year, and the year-end either fails to parse or is at least the year.
In particular a record whose year-start parses and exceeds the year is
excluded even when its year-end is non-numeric — the chained comparison
short-circuits before raising. -/
theorem C3_year_filter_amended (db : VehicleDatabase) (b m : String) (y : Int) (v : Vehicle)
    (hy : y ≠ 0) :
    v ∈ search_by_brand_and_model db b m (some y) ↔
      v ∈ search_by_brand db b ∧ modelAccept (pyUpper (pyStrip m)) v = true ∧
        ((truthyField v.anoInicial = false ∨ truthyField v.anoFinal = false) ∨
          pyInt? (v.anoInicial.getD ("")) = none ∨
          (∃ lo, pyInt? (v.anoInicial.getD ("")) = some lo ∧ lo ≤ y ∧
            (pyInt? (v.anoFinal.getD ("")) = none ∨
              ∃ hi, pyInt? (v.anoFinal.getD ("")) = some hi ∧ y ≤ hi))) := by
  rw [mem_search_by_brand_and_model]
  refine and_congr_right fun _ => and_congr_right fun _ => ?_
  simp only [yearKeep]
  rw [if_pos hy]
  cases h1 : truthyField v.anoInicial with
  | false => simp [h1]
  | true =>
    cases h2 : truthyField v.anoFinal with
    | false => simp [h1, h2]
    | true =>
      simp only [h1, h2, Bool.and_self, if_true]
      cases hlo : pyInt? (v.anoInicial.getD ("")) with
      | none => simp [hlo]
      | some lo =>
        simp only [hlo]
        by_cases hle : lo ≤ y
        · rw [if_pos hle]
          cases hhi : pyInt? (v.anoFinal.getD ("")) with
          | none => simp [hhi, hle]
          | some hi => simp [hhi, hle, decide_eq_true_iff]
        · rw [if_neg hle]
          simp [hle]

theorem alistLookup_dictPush (m : List (String × List Vehicle)) (k k2 : String)
    (v : Vehicle) :
    alistLookup (dictPush m k v) k2 =
      if k2 = k then some ((alistLookup m k).getD [] ++ [v]) else alistLookup m k2 := by
  unfold dictPush alistLookup
  by_cases hany : m.any (fun p => p.1 == k) = true
  · rw [if_pos hany]
    rw [List.find?_map]
    have hpred : ((fun p : String × List Vehicle => p.1 == k2) ∘
        fun p => if p.1 == k then (p.1, p.2 ++ [v]) else p) =
        fun p : String × List Vehicle => p.1 == k2 := by
      funext p
      by_cases h : (p.1 == k) = true <;> simp [Function.comp, h]
    rw [hpred]
    by_cases hk : k2 = k
    · subst hk
      obtain ⟨p, hp⟩ : ∃ p, m.find? (fun p => p.1 == k2) = some p := by
        obtain ⟨p, hpm, hpk⟩ := List.any_eq_true.mp hany
        exact Option.isSome_iff_exists.mp (List.find?_isSome.mpr ⟨p, hpm, hpk⟩)
      have hpk : (p.1 == k2) = true := by simpa using List.find?_some hp
      have hp1 : p.1 = k2 := beq_iff_eq.mp hpk
      rw [hp, if_pos rfl]
      simp [hpk, hp1]
    · rw [if_neg hk]
      cases hfind : m.find? (fun p => p.1 == k2) with
      | none => simp
      | some p =>
        have hpk2 : p.1 = k2 := by
          have h2 := List.find?_some hfind
          simpa [beq_iff_eq] using h2
        have hpk : (p.1 == k) = false := by
          rw [beq_eq_false_iff_ne, hpk2]
          exact hk
        have hne2 : ¬ p.1 = k := beq_eq_false_iff_ne.mp hpk
        simp [hpk, hne2]
  · rw [if_neg hany]
    rw [List.find?_append]
    have hnone : m.find? (fun p => p.1 == k) = none := by
      rw [List.find?_eq_none]
      intro p hp hpk
      exact hany (List.any_eq_true.mpr ⟨p, hp, hpk⟩)
    by_cases hk : k2 = k
    · subst hk
      rw [hnone]
      simp [List.find?]
    · have hs : ([(k, [v])].find? fun p => p.1 == k2) = none := by
        have : (k == k2) = false := by
          rw [beq_eq_false_iff_ne]
          intro he
          exact hk he.symm
        simp [List.find?, this]
      rw [hs, if_neg hk]
      simp

theorem indexStep_byBrand (db : VehicleDatabase) (v : Vehicle) :
    (indexStep db v).byBrand =
      if brandKey v ≠ "" then dictPush db.byBrand (brandKey v) v else db.byBrand := by
  unfold indexStep
  by_cases h1 : fipeKey v ≠ "" <;> by_cases h2 : brandKey v ≠ "" <;>
    by_cases h3 : modelKey v ≠ "" <;> simp [h1, h2, h3]

theorem foldl_byBrand (vs : List Vehicle) :
    ∀ (acc : VehicleDatabase) (B : String), B ≠ "" →
      (alistLookup ((vs.foldl indexStep acc).byBrand) B).getD [] =
        (alistLookup acc.byBrand B).getD [] ++ (vs.filter fun v => brandKey v == B) := by
  induction vs with
  | nil => intro acc B _; simp
  | cons v vs ih =>
    intro acc B hB
    rw [List.foldl_cons, ih (indexStep acc v) B hB, indexStep_byBrand]
    by_cases hbk : brandKey v ≠ ""
    · rw [if_pos hbk, alistLookup_dictPush]
      by_cases heq : B = brandKey v
      · subst heq
        rw [if_pos rfl]
        have hf : (brandKey v == brandKey v) = true := by simp
        simp [List.filter_cons, hf, List.append_assoc]
      · rw [if_neg heq]
        have hf : (brandKey v == B) = false := by
          rw [beq_eq_false_iff_ne]
          intro he
          exact heq he.symm
        simp [List.filter_cons, hf]
    · rw [if_neg hbk]
      push_neg at hbk
      have hf : (brandKey v == B) = false := by
        rw [beq_eq_false_iff_ne, hbk]
        intro he
        exact hB he.symm
      simp [List.filter_cons, hf]

theorem foldl_byBrand_no_empty_key (vs : List Vehicle) :
    ∀ acc : VehicleDatabase, alistLookup acc.byBrand ("") = none →
      alistLookup ((vs.foldl indexStep acc).byBrand) ("") = none := by
  induction vs with
  | nil => intro acc h; simpa using h
  | cons v vs ih =>
    intro acc h
    rw [List.foldl_cons]
    apply ih
    rw [indexStep_byBrand]
    by_cases hbk : brandKey v ≠ ""
    · rw [if_pos hbk, alistLookup_dictPush, if_neg]
      · exact h
      · intro he
        exact hbk he.symm
    · rw [if_neg hbk]
      exact h

theorem alistLookup_isSome_iff (m : List (String × List Vehicle)) (k : String) :
    (alistLookup m k).isSome = true ↔ k ∈ m.map fun p => p.1 := by
  unfold alistLookup
  simp only [Option.isSome_map']
  rw [List.find?_isSome]
  simp only [List.mem_map, beq_iff_eq]

theorem mkDatabase_byBrand_bucket (vs : List Vehicle) (B : String) (hB : B ≠ "") :
    (alistLookup (mkDatabase vs).byBrand B).getD [] =
      vs.filter fun v => brandKey v == B := by
  unfold mkDatabase
  rw [foldl_byBrand vs _ B hB]
  simp [alistLookup]

theorem mkDatabase_no_empty_brand_key (vs : List Vehicle) :
    alistLookup (mkDatabase vs).byBrand ("") = none := by
  unfold mkDatabase
  apply foldl_byBrand_no_empty_key
  rfl

/-- Claim C7: every brand key of the built index is nonempty; the
sequence stored under a key B is exactly, and in loading order, the
loaded records whose normalized brand is B (both directions of the
membership claim follow); and search_by_brand returns the stored
sequence for the normalized argument, or the empty list. -/
theorem C7_brand_index_invariant (vs : List Vehicle) (B : String)
    (hB : B ∈ (mkDatabase vs).byBrand.map fun p => p.1) :
    (alistLookup (mkDatabase vs).byBrand B).getD [] =
        (vs.filter fun v => brandKey v == B) ∧
      (∀ v ∈ (alistLookup (mkDatabase vs).byBrand B).getD [], brandKey v = B) ∧
      (∀ v ∈ vs, brandKey v = B →
        v ∈ (alistLookup (mkDatabase vs).byBrand B).getD []) ∧
      alistLookup (mkDatabase vs).byBrand ("") = none ∧
      ∀ b, search_by_brand (mkDatabase vs) b =
        (alistLookup (mkDatabase vs).byBrand (pyUpper (pyStrip b))).getD [] := by
  have hBne : B ≠ "" := by
    intro he
    subst he
    rw [← alistLookup_isSome_iff, mkDatabase_no_empty_brand_key] at hB
    simp at hB
  have hbucket := mkDatabase_byBrand_bucket vs B hBne
  refine ⟨hbucket, ?_, ?_, mkDatabase_no_empty_brand_key vs, fun b => rfl⟩
  · intro v hv
    rw [hbucket] at hv
    have := (List.mem_filter.mp hv).2
    simpa [beq_iff_eq] using this
  · intro v hv hbk
    rw [hbucket]
    exact List.mem_filter.mpr ⟨hv, by simp [hbk]⟩

theorem C1_model_text_amended_witness :
    (parse_query dbHilux ("TOYOTA HILUX")).brand = some ("TOYOTA") ∧
      (parse_query dbHilux ("TOYOTA HILUX")).fipe_code = none ∧
      ("TOYOTA" : String) ≠ "" ∧
      (search dbHilux ("TOYOTA HILUX") =
          search_by_brand_and_model dbHilux ("TOYOTA")
            (query_without_brand ("TOYOTA HILUX") ("TOYOTA"))
            (parse_query dbHilux ("TOYOTA HILUX")).year ∧
        (containsSeq ("TOYOTA" : String).data ("TOYOTA HILUX" : String).data = false →
          query_without_brand ("TOYOTA HILUX") ("TOYOTA") = pyStrip ("TOYOTA HILUX")) ∧
        (∀ pre suf : List Char,
          ("TOYOTA HILUX" : String).data = pre ++ ("TOYOTA" : String).data ++ suf →
          (∀ pre2 suf2, ("TOYOTA HILUX" : String).data =
            pre2 ++ ("TOYOTA" : String).data ++ suf2 → pre.length ≤ pre2.length) →
          query_without_brand ("TOYOTA HILUX") ("TOYOTA") =
            pyStrip (String.mk (pre ++ suf)))) :=
  ⟨by decide, by decide, by decide,
    C1_model_text_amended dbHilux ("TOYOTA HILUX") ("TOYOTA")
      (by decide) (by decide) (by decide)⟩

theorem C3_year_filter_amended_witness :
    (2015 : Int) ≠ 0 ∧
      (vHilux ∈ search_by_brand_and_model dbHilux ("TOYOTA") ("HILUX") (some 2015) ↔
        vHilux ∈ search_by_brand dbHilux ("TOYOTA") ∧
          modelAccept (pyUpper (pyStrip ("HILUX"))) vHilux = true ∧
          ((truthyField vHilux.anoInicial = false ∨
              truthyField vHilux.anoFinal = false) ∨
            pyInt? (vHilux.anoInicial.getD ("")) = none ∨
            (∃ lo, pyInt? (vHilux.anoInicial.getD ("")) = some lo ∧ lo ≤ 2015 ∧
              (pyInt? (vHilux.anoFinal.getD ("")) = none ∨
                ∃ hi, pyInt? (vHilux.anoFinal.getD ("")) = some hi ∧
                  (2015 : Int) ≤ hi)))) :=
  ⟨by decide,
    C3_year_filter_amended dbHilux ("TOYOTA") ("HILUX") 2015 vHilux (by decide)⟩

theorem C4_fipe_short_circuit_witness :
    (parse_query dbHilux ("002107-5")).fipe_code = some ("002107-5") ∧
      search_by_fipe dbHilux ("002107-5") = some vHilux ∧
      search dbHilux ("002107-5") = [vHilux] :=
  ⟨by decide, by decide,
    C4_fipe_short_circuit dbHilux ("002107-5") ("002107-5") vHilux
      (by decide) (by decide)⟩

theorem C6_brand_only_fallback_witness :
    (parse_query dbHilux ("TOYOTA")).brand = some ("TOYOTA") ∧
      ("TOYOTA" : String) ≠ "" ∧
      (parse_query dbHilux ("TOYOTA")).fipe_code = none ∧
      query_without_brand ("TOYOTA") ("TOYOTA") = "" ∧
      search dbHilux ("TOYOTA") =
        (search_by_brand dbHilux ("TOYOTA")).filter
          (yearKeep (parse_query dbHilux ("TOYOTA")).year) :=
  ⟨by decide, by decide, by decide, by decide,
    C6_brand_only_fallback dbHilux ("TOYOTA") ("TOYOTA")
      (by decide) (by decide) (by decide) (by decide)⟩

theorem C7_brand_index_invariant_witness :
    ("TOYOTA") ∈ (mkDatabase [vHilux]).byBrand.map (fun p => p.1) ∧
      ((alistLookup (mkDatabase [vHilux]).byBrand ("TOYOTA")).getD [] =
          ([vHilux].filter fun v => brandKey v == ("TOYOTA")) ∧
        (∀ v ∈ (alistLookup (mkDatabase [vHilux]).byBrand ("TOYOTA")).getD [],
          brandKey v = ("TOYOTA")) ∧
        (∀ v ∈ [vHilux], brandKey v = ("TOYOTA") →
          v ∈ (alistLookup (mkDatabase [vHilux]).byBrand ("TOYOTA")).getD []) ∧
        alistLookup (mkDatabase [vHilux]).byBrand ("") = none ∧
        ∀ b, search_by_brand (mkDatabase [vHilux]) b =
          (alistLookup (mkDatabase [vHilux]).byBrand (pyUpper (pyStrip b))).getD []) :=
  ⟨by decide, C7_brand_index_invariant [vHilux] ("TOYOTA") (by decide)⟩

theorem C8_extractor_total_witness :
    findFipe ("hello" : String).data = none ∧
      findYear ("hello" : String).data = none ∧
      (get_all_brands dbHilux).find? (fun b => brandInQuery b ("hello")) = none ∧
      (parse_query dbHilux ("hello") =
          { brand := none, model := none, year := none, fipe_code := none,
            raw_query := ("hello") } ∧
        search dbHilux ("hello") = []) :=
  ⟨by decide, by decide, by decide,
    C8_extractor_total dbHilux ("hello") (by decide) (by decide) (by decide)⟩

theorem C9_unknown_fipe_falls_through_witness :
    (parse_query dbOddModel ("TOYOTA HILUX 999999-9")).fipe_code = some ("999999-9") ∧
      search_by_fipe dbOddModel ("999999-9") = none ∧
      (parse_query dbOddModel ("TOYOTA HILUX 999999-9")).brand = some ("TOYOTA") ∧
      ("TOYOTA" : String) ≠ "" ∧
      search dbOddModel ("TOYOTA HILUX 999999-9") =
        search_by_brand_and_model dbOddModel ("TOYOTA")
          (query_without_brand ("TOYOTA HILUX 999999-9") ("TOYOTA"))
          (parse_query dbOddModel ("TOYOTA HILUX 999999-9")).year ∧
      search dbOddModel ("TOYOTA HILUX 999999-9") = [vOddModel] :=
  ⟨by decide, by decide, by decide, by decide,
    C9_unknown_fipe_falls_through dbOddModel ("TOYOTA HILUX 999999-9")
      ("999999-9") ("TOYOTA") (by decide) (by decide) (by decide) (by decide),
    by decide⟩

end VehicleSearch
